import Mathlib

/-
  Verification development for the python-practice front-end core of the
  akapychan repository: the navigation-and-cache coordinator
  (src/frontend/js/python-practice/{state.js, leetcode_data.js, events.js,
  random.js} and the render module).

  Shallow embedding conventions:
  * JavaScript numbers that matter here are embedded as Int (integer tags
    and indices) or as Rat (results of Number(...) coercion, Math.random()).
  * sessionStorage is an association list of string keys to string values,
    wrapped in Option: none models a storage whose accessors throw.
  * Promises are embedded by their settlement: Except String carries a
    rejection message, and the setCache maps ids to a PromiseState.
  * async control flow with one suspension point (the fetch await) is split
    into a synchronous start function and a resolve function; the event
    loop is modelled by applying these in an explicitly chosen order.
-/

namespace Akapychan

/-! ## JavaScript string-to-number coercion (decimal fragment)

state.js loadCur computes `Number(v)` on the stored string and keeps the
result only when `Number.isFinite` holds.  We embed the decimal-literal
fragment of the coercion: optional surrounding whitespace, optional sign,
digits with an optional fractional part.  Strings outside this fragment
map to none, standing for a non-finite result (NaN); `Number.isFinite`
rejects those exactly as the source does. -/

def digitsVal (cs : List Char) : Nat :=
  cs.foldl (fun a c => a * 10 + (c.toNat - 48)) 0

def allDigits (cs : List Char) : Bool :=
  cs.all Char.isDigit

/-- Strip surrounding whitespace, as the JS coercion does before parsing. -/
def trimChars (cs : List Char) : List Char :=
  ((cs.dropWhile Char.isWhitespace).reverse.dropWhile Char.isWhitespace).reverse

/-- Split at the first decimal point: integer digits and fraction digits
(empty fraction when no point); none when a second point occurs. -/
def splitDot : List Char → Option (List Char × List Char)
  | [] => some ([], [])
  | '.' :: rest => if rest.contains '.' then none else some ([], rest)
  | c :: rest => (splitDot rest).map (fun p => (c :: p.1, p.2))

/-- Decimal fragment of the JS `Number(string)` coercion; none means the
result is not finite (NaN), some q a finite value.  The empty (trimmed)
string coerces to 0.  Hexadecimal and exponent forms, which never arise
from the integer indices this store writes, are mapped to none. -/
def jsStrToNumber (s : String) : Option ℚ :=
  match trimChars s.toList with
  | [] => some 0
  | t =>
      let sign : ℚ := if t.head? = some '-' then -1 else 1
      let body :=
        if t.head? = some '-' || t.head? = some '+' then t.tail else t
      match splitDot body with
      | none => none
      | some (ip, fp) =>
          if ip.isEmpty && fp.isEmpty then none
          else if allDigits ip && allDigits fp then
            some (sign * ((digitsVal ip : ℚ) +
              (digitsVal fp : ℚ) / ((10 : ℚ) ^ fp.length)))
          else none

/-- JS `Number(v)` where v is `sessionStorage.getItem`-shaped: null coerces
to 0, a string through the decimal fragment above. -/
def jsNumberOfItem (v : Option String) : Option ℚ :=
  match v with
  | none => some 0
  | some s => jsStrToNumber s

/-! ## SessionProgressStore (state.js saveCur / loadCur)

sessionStorage is an association list; the outer Option models whether
storage access throws (none = every access throws, caught by the
try/catch in the source). `setItem` overwrites, which the association
list models by consing (lookup finds the newest binding). -/

def Storage : Type := Option (List (String × String))

/-- STORAGE.curPrefix from constants.js. -/
def curKeyPref : String := "py.cur."

/-- state.js saveCur: `sessionStorage.setItem(prefix+setId, String(idx))`
inside try/catch — a throwing storage swallows the write. -/
def saveCur (st : Storage) (setId : String) (idx : Int) : Storage :=
  match st with
  | none => none
  | some m => some ((curKeyPref ++ setId, toString idx) :: m)

/-- state.js loadCur: getItem, Number(v), return it when finite, else 0;
any storage exception is caught and yields 0. -/
def loadCur (st : Storage) (setId : String) : ℚ :=
  match st with
  | none => 0
  | some m =>
      let v := m.lookup (curKeyPref ++ setId)
      match jsNumberOfItem v with
      | some n => n
      | none => 0

/-- The stored entry loadCur would read: none when storage throws or the
key is absent. -/
def storedEntry (st : Storage) (setId : String) : Option String :=
  match st with
  | none => none
  | some m => m.lookup (curKeyPref ++ setId)

/-! ## Problem entries and documents -/

/-- One entry of a problem-set document (`coding_practice` item): the
fields the coordinator inspects. `tag` is the category tag as coerced by
`Number(q.tag)`, `difficult` the raw difficulty string, `title` the
display title. -/
structure LeetQ where
  tag : Int
  difficult : String
  title : String
deriving DecidableEq

/-- A successfully fetched and validated document is its non-empty
`coding_practice` array; the embedding carries the list and validity is
tracked where the source checks it. -/
abbrev LeetDoc := List LeetQ

/-- JS array indexing `list[idx]` with an Int index: undefined (none)
outside [0, length). -/
def jsIndex {α : Type} (l : List α) (i : Int) : Option α :=
  if h : 0 ≤ i ∧ i.toNat < l.length then some (l.get ⟨i.toNat, h.2⟩) else none

/-! ## render.js renderOneQuestion (view projection + navigation record)

The DOM writes are projected to the fields the claims mention: the shown
title, the `#output` text, and the current set/index recorded through
`setCurrentQuestion` (dom.js → state.js setCurrent). -/

structure ViewNav where
  output : String
  title : String
  currentDataId : Option String
  currentPracticeIdx : Int
deriving DecidableEq

def notFoundMsg (idx : Int) : String :=
  "找不到第 " ++ toString (idx + 1) ++ " 題資料"

/-- render.js renderOneQuestion: `data` is `data?.coding_practice` when it
is an array (none when missing or not an array, which the source replaces
by []); out-of-range indices hit the `!item` early return that only sets
the output message; otherwise the item is rendered and
setCurrentQuestion records the set and index. -/
def renderOneQuestion (data : Option LeetDoc) (idx : Int) (setId : String)
    (v : ViewNav) : ViewNav :=
  let list := data.getD []
  match jsIndex list idx with
  | none => { v with output := notFoundMsg idx }
  | some item =>
      { v with title := item.title,
               currentDataId := some setId,
               currentPracticeIdx := idx }

/-! ## Router (leetcode_data.js loadSet / backToMainMenu / popstate)

RouterState projects the browser state the router reads and writes:
`history` is the history stack restricted to the `set` query parameter of
each entry (head = current entry; pushState conses), `isLoading` the
module-level flag of state.js, `pending` the set id whose fetch is
outstanding (at most one, enforced by the flag), `applied` the set
recorded by setLastLoaded after a successful render, plus the visibility
flags and the `#output` text the handlers assign.  The main menu element
is assumed present (its absence only aborts loadSet early). -/

structure RouterState where
  isLoading : Bool
  history : List (Option String)
  pending : Option String
  applied : Option String
  areaVisible : Bool
  backBtnVisible : Bool
  previewVisible : Bool
  output : String
deriving DecidableEq

/-- state.js getSetId: read the `set` query parameter of the current URL
(the head history entry). -/
def getSetId (s : RouterState) : Option String :=
  (s.history.head?).getD none

def loadingMsg : String := "載入題組中…"

def loadFailedPref : String := "載入失敗："

/-- Synchronous prefix of leetcode_data.js loadSet, up to the fetch await:
the isLoading guard drops the call entirely when a load is in flight;
otherwise the flag is set, the URL is pushed when pushUrl is true
(`url.searchParams.set` + `history.pushState`), the loading message is
shown and the fetch is started. -/
def loadSetStart (s : RouterState) (setId : String) (pushUrl : Bool) :
    RouterState :=
  if s.isLoading then s
  else
    let s1 := { s with isLoading := true }
    let s2 := if pushUrl then { s1 with history := some setId :: s1.history }
              else s1
    { s2 with output := loadingMsg, pending := some setId }

/-- Continuation of loadSet after its fetch settles. some doc stands for a
successful response whose body passed the non-empty coding_practice
validation (the set is rendered, shown, and recorded via setLastLoaded);
none collapses the HTTP-error, JSON-error and validation-error paths into
the catch branch. `finally` clears the flag on both paths. -/
def loadSetResolve (s : RouterState) (result : Option LeetDoc) : RouterState :=
  match s.pending with
  | none => s
  | some id =>
      match result with
      | some _doc =>
          { s with pending := none, applied := some id, areaVisible := true,
                   backBtnVisible := true, previewVisible := true,
                   output := "", isLoading := false }
      | none =>
          { s with pending := none, output := loadFailedPref,
                   isLoading := false }

/-- leetcode_data.js backToMainMenu: restores the menu view, clears the
output, hides the back button and preview, then deletes the `set` query
parameter and pushes a menu history entry
(`history.pushState({}, '', url)`). -/
def backToMainMenu (s : RouterState) : RouterState :=
  { s with areaVisible := true, output := "",
           backBtnVisible := false, previewVisible := false,
           history := none :: s.history }

/-- The listener installed by installPopstateHandler: read the `set`
parameter of the (already moved-to) current entry; when present, call
loadSet(set, false) and show the practice area, back button and preview;
when absent, call backToMainMenu. -/
def popstateHandler (s : RouterState) : RouterState :=
  match getSetId s with
  | some id =>
      { loadSetStart s id false with
        areaVisible := true, backBtnVisible := true, previewVisible := true }
  | none => backToMainMenu s

/-- events.js intra-set problem switch (the `.M-Unit` branch with a
data-exIdx): renderOneQuestion on the last-loaded data, then saveCur; no
URL or history mutation. -/
def switchProblem (s : RouterState) (st : Storage) (v : ViewNav)
    (setId : String) (data : LeetDoc) (i : Int) :
    RouterState × Storage × ViewNav :=
  (s, saveCur st setId i, renderOneQuestion (some data) i setId v)

/-! ## random.js: DatasetCache (setCache / loadSetJSON) -/

/-- Settlement state of a cached promise: pending while the fetch is
outstanding, fulfilled with the validated document, or rejected with the
error message. -/
inductive PromiseState where
  | pending : PromiseState
  | fulfilled (data : LeetDoc) : PromiseState
  | rejected (msg : String) : PromiseState
deriving DecidableEq

/-- random.js setCache: setId → cached promise. -/
abbrev SetCache := List (String × PromiseState)

/-- random.js loadSetJSON, synchronous part: when the id is cached the
cached promise is returned and no fetch happens; otherwise the async body
is started — its promise is put in the cache immediately (before the
fetch settles or validation runs) — and a fetch is issued.  The returned
Bool records whether a network fetch was issued by this call. -/
def loadSetJSON (c : SetCache) (setId : String) : SetCache × Bool :=
  match c.lookup setId with
  | some _ => (c, false)
  | none => ((setId, PromiseState.pending) :: c, true)

/-- Settlement of the async body of loadSetJSON for `setId`: the cached
promise becomes fulfilled (response ok, JSON parsed, coding_practice a
non-empty array) or rejected (any throw).  Nothing in the source ever
deletes a cache entry, so settlement rewrites the entry in place. -/
def settleFetch (c : SetCache) (setId : String) (r : PromiseState) : SetCache :=
  c.map (fun e => if e.1 = setId then (e.1, r) else e)

/-- A sequence of loadSetJSON calls against an evolving cache; returns the
final cache and the ordered list of set ids for which a network fetch was
issued. -/
def runLoads (c : SetCache) : List String → SetCache × List String
  | [] => (c, [])
  | id :: rest =>
      let r1 := loadSetJSON c id
      let r2 := runLoads r1.1 rest
      (r2.1, (if r1.2 then [id] else []) ++ r2.2)

/-! ## random.js: loadAllSets (Promise.all over the discovered sets) -/

/-- A set discovered from the menu DOM: collectAllLeetSets yields
`{ setId, url }` pairs. -/
structure SetRef where
  setId : String
  url : String
deriving DecidableEq

/-- A successfully loaded set as loadSetJSON resolves it:
`{ setId, url, data }` with the url dropped (nothing downstream reads it). -/
structure LoadedSet where
  setId : String
  data : LeetDoc
deriving DecidableEq

/-- `Promise.all` over settled per-set outcomes: every fulfilment yields
the list of values, any rejection rejects the whole aggregate (the source
rejects with the first rejection to settle; the embedding takes the first
in list order, which only fixes which message is carried). -/
def promiseAll : List (Except String LoadedSet) → Except String (List LoadedSet)
  | [] => Except.ok []
  | Except.error e :: _ => Except.error e
  | Except.ok x :: rest => (promiseAll rest).map (fun l => x :: l)

def noSetsMsg : String :=
  "找不到任何可載入的 Leetcode 題組（請確認主選單的 data-id 項目）"

/-- random.js loadAllSets: throw when no set is discovered, otherwise
`Promise.all(sets.map(s => loadSetJSON(s.setId, s.url)))`.  `fetch` gives
the settled outcome of each set id's load (fulfilled document or
rejection message). -/
def loadAllSets (sets : List SetRef)
    (fetch : String → Except String LeetDoc) :
    Except String (List LoadedSet) :=
  if sets.isEmpty then Except.error noSetsMsg
  else promiseAll (sets.map (fun s =>
    (fetch s.setId).map (fun d => LoadedSet.mk s.setId d)))

/-! ## random.js: filter and candidate pool -/

/-- Category bucketing as written in the source:
`Math.floor(Number(q.tag) / 100) * 100`.  fdiv is floor division, which
is what Math.floor of a real quotient computes on integers. -/
def bucket (tag : Int) : Int :=
  (Int.fdiv tag 100) * 100

/-- JS `toLowerCase()` on the ASCII range the difficulty labels use. -/
def jsToLower (s : String) : String :=
  String.mk (s.data.map Char.toLower)

/-- random.js makeFilter: match the hundreds bucket against the requested
category, and the lower-cased difficulty against the requested one unless
the request is the literal "none" (any difficulty). -/
def makeFilter (categoryId : Int) (difficulty : String) (q : LeetQ) : Bool :=
  let wantAnyDiff := difficulty == "none"
  (bucket q.tag == categoryId) &&
    (wantAnyDiff || (jsToLower q.difficult == jsToLower difficulty))

/-- A pool element as pickAndRender builds it: `{ setId, data, idx, q }`
with the data field dropped (only picked.data feeds the renderer). -/
structure Picked where
  setId : String
  idx : Nat
  q : LeetQ
deriving DecidableEq

/-- The `forEach((q, idx) => if (pred q) push { setId, idx, q })` loop over
one document, with the running index made explicit. -/
def filterIndexed (setId : String) (pred : LeetQ → Bool) :
    Nat → LeetDoc → List Picked
  | _, [] => []
  | i, q :: rest =>
      (if pred q then [Picked.mk setId i q] else []) ++
        filterIndexed setId pred (i + 1) rest

/-- The first candidate pool of pickAndRender: every loaded entry passing
makeFilter. -/
def poolOf (loaded : List LoadedSet) (pred : LeetQ → Bool) : List Picked :=
  loaded.flatMap (fun ls => filterIndexed ls.setId pred 0 ls.data)

/-- The defensive re-scan that runs when the pool is empty and the request
was "none": same loop with only the category test. -/
def relaxedPool (loaded : List LoadedSet) (categoryId : Int) : List Picked :=
  loaded.flatMap (fun ls =>
    filterIndexed ls.setId (fun q => bucket q.tag == categoryId) 0 ls.data)

/-- The candidate list pickAndRender indexes into: the pool, extended by
the relaxed re-scan exactly when the pool is empty and finalDifficulty is
"none" (the source pushes into the aliased empty array). -/
def candOf (loaded : List LoadedSet) (categoryId : Int)
    (finalDifficulty : String) : List Picked :=
  let pool := poolOf loaded (makeFilter categoryId finalDifficulty)
  if pool.isEmpty && (finalDifficulty == "none") then
    pool ++ relaxedPool loaded categoryId
  else pool

def noMatchMsg : String :=
  "找不到符合「單元／難度」的題目。請換個條件再試試！"

/-- Marker for the state the source would crash in
(`candidate[i]` undefined): proved unreachable for rand in [0, 1). -/
def indexErrMsg : String := "INTERNAL-out-of-range"

/-- The selection tail of random.js pickAndRender, after all sets are
loaded: build the pool, relax it when empty under "none", throw the
no-match error on an empty candidate list, otherwise index at
`Math.floor(Math.random() * candidate.length)` with rand the Math.random
draw. -/
def pickCore (loaded : List LoadedSet) (categoryId : Int)
    (finalDifficulty : String) (rand : ℚ) : Except String Picked :=
  let candidate := candOf loaded categoryId finalDifficulty
  if candidate.isEmpty then Except.error noMatchMsg
  else
    match candidate.get? (Int.toNat (Rat.floor (rand * (candidate.length : ℚ)))) with
    | some p => Except.ok p
    | none => Except.error indexErrMsg

/-- random.js pickAndRender without its UI prologue: awaiting loadAllSets
rejects the whole call on any rejected aggregate, otherwise the selection
tail runs.  (rebuildDifficultySelect only rewrites the dropdown; the
value it leaves is passed here as finalDifficulty.) -/
def pickAndRender (sets : List SetRef)
    (fetch : String → Except String LeetDoc) (categoryId : Int)
    (finalDifficulty : String) (rand : ℚ) : Except String Picked :=
  match loadAllSets sets fetch with
  | Except.error e => Except.error e
  | Except.ok loaded => pickCore loaded categoryId finalDifficulty rand

def pickFailPref : String := "出題失敗："

/-- The submit-click listener of random.js: await pickAndRender inside
try/catch, presenting any rejection through setOutput; the result is the
`#output` text after the click settles. -/
def submitClickOutput (sets : List SetRef)
    (fetch : String → Except String LeetDoc) (categoryId : Int)
    (finalDifficulty : String) (rand : ℚ) : String :=
  match pickAndRender sets fetch categoryId finalDifficulty rand with
  | Except.error e => pickFailPref ++ e
  | Except.ok _ => ""

/-! ## Shared concrete fixtures -/

def demoRouter : RouterState :=
  { isLoading := false, history := [none], pending := none, applied := none,
    areaVisible := false, backBtnVisible := false, previewVisible := false,
    output := "" }

def demoDoc : LeetDoc := [{ tag := 512, difficult := "easy", title := "q1" }]

def demoView : ViewNav :=
  { output := "", title := "", currentDataId := none, currentPracticeIdx := 0 }

/-! ## C9 — SessionProgressStore.load -/

/-- C9 (amended): loadCur is total and never throws; it returns 0 whenever
the storage access throws, the entry is absent, or the stored entry does
not coerce to a finite number.  (The original claim further said the
result is always an integer; the counterexample below refutes that.) -/
theorem c9_loadCur_defaults (st : Storage) (setId : String)
    (h : storedEntry st setId = none ∨
      ∃ v, storedEntry st setId = some v ∧ jsStrToNumber v = none) :
    loadCur st setId = 0 := by
  match st with
  | none => rfl
  | some m =>
      simp only [storedEntry] at h
      rcases h with h | ⟨v, hv, hp⟩
      · simp [loadCur, h, jsNumberOfItem]
      · simp [loadCur, hv, jsNumberOfItem, hp]

/-- C9 witness: a throwing storage yields 0 for an unknown set id. -/
theorem c9_witness : loadCur none "unknownSet" = 0 :=
  c9_loadCur_defaults none "unknownSet" (Or.inl rfl)

/-- C9 counterexample: a stored entry "2.5" coerces to the finite number
5/2, so loadCur returns a value different from every integer (it differs
from its own floor), refuting the claim that load(id) always returns an
integer. -/
theorem c9_counterexample :
    loadCur (some [(curKeyPref ++ "a", "2.5")]) "a" = (5 : ℚ) / 2 ∧
      loadCur (some [(curKeyPref ++ "a", "2.5")]) "a" ≠
        ((⌊loadCur (some [(curKeyPref ++ "a", "2.5")]) "a"⌋ : ℤ) : ℚ) := by
  have h1 : loadCur (some [(curKeyPref ++ "a", "2.5")]) "a" =
      (1 : ℚ) * (((2 : ℕ) : ℚ) + ((5 : ℕ) : ℚ) / (10 : ℚ) ^ (1 : ℕ)) := rfl
  have h2 : loadCur (some [(curKeyPref ++ "a", "2.5")]) "a" = (5 : ℚ) / 2 := by
    rw [h1]; norm_num
  have h3 : ⌊((5 : ℚ) / 2)⌋ = 2 := Int.floor_eq_iff.mpr (by norm_num)
  refine ⟨h2, ?_⟩
  rw [h2, h3]
  norm_num

/-! ## C10 — renderOneQuestion on out-of-range indices -/

/-- C10: for every document and index that does not address an existing
item of its coding_practice list (including a missing or non-array list),
renderOneQuestion only sets the not-found output message; the title and
the recorded current set/index are left unchanged, and setCurrentQuestion
is not invoked (the nav fields are untouched). -/
theorem c10_renderOneQuestion_out_of_range (data : Option LeetDoc)
    (idx : Int) (setId : String) (v : ViewNav)
    (h : jsIndex (data.getD []) idx = none) :
    renderOneQuestion data idx setId v = { v with output := notFoundMsg idx } := by
  simp [renderOneQuestion, h]

/-- C10 witness: a missing coding_practice list with index 5 leaves the
navigation fields untouched and only writes the not-found message. -/
theorem c10_witness :
    renderOneQuestion none 5 "algo1" demoView =
      { demoView with output := notFoundMsg 5 } :=
  c10_renderOneQuestion_out_of_range none 5 "algo1" demoView (by decide)

/-! ## Helper lemmas about loadSetStart and popstateHandler -/

theorem loadSetStart_of_loading (s : RouterState) (id : String) (p : Bool)
    (h : s.isLoading = true) : loadSetStart s id p = s := by
  simp [loadSetStart, h]

theorem loadSetStart_isLoading (s : RouterState) (id : String) (p : Bool)
    (h : s.isLoading = false) : (loadSetStart s id p).isLoading = true := by
  cases p <;> simp [loadSetStart, h]

theorem loadSetStart_isLoading' (s : RouterState) (id : String) (p : Bool) :
    (loadSetStart s id p).isLoading = true := by
  cases h : s.isLoading
  · exact loadSetStart_isLoading s id p h
  · rw [loadSetStart_of_loading s id p h]; exact h

theorem loadSetStart_pending (s : RouterState) (id : String) (p : Bool)
    (h : s.isLoading = false) : (loadSetStart s id p).pending = some id := by
  cases p <;> simp [loadSetStart, h]

theorem loadSetStart_history_nopush (s : RouterState) (id : String) :
    (loadSetStart s id false).history = s.history := by
  cases h : s.isLoading <;> simp [loadSetStart, h]

theorem popstateHandler_some (s : RouterState) (id : String)
    (h : getSetId s = some id) :
    popstateHandler s =
      { loadSetStart s id false with
        areaVisible := true, backBtnVisible := true, previewVisible := true } := by
  unfold popstateHandler
  rw [h]

/-! ## C1 — overlapping enterSet actions -/

/-- C1 counterexample: enterSet("A") then enterSet("B") before the A fetch
resolves.  The isLoading guard drops B entirely, so after the A fetch
resolves the applied state and the URL both correspond to "A", not "B" —
refuting the latest-wins/sequence-number claim. -/
theorem c1_counterexample :
    (loadSetResolve
        (loadSetStart (loadSetStart demoRouter "A" true) "B" true)
        (some demoDoc)).applied = some "A" ∧
      (loadSetResolve
          (loadSetStart (loadSetStart demoRouter "A" true) "B" true)
          (some demoDoc)).applied ≠ some "B" ∧
      getSetId (loadSetResolve
          (loadSetStart (loadSetStart demoRouter "A" true) "B" true)
          (some demoDoc)) = some "A" ∧
      loadSetStart (loadSetStart demoRouter "A" true) "B" true =
        loadSetStart demoRouter "A" true := by
  refine ⟨?_, ?_, ?_, ?_⟩ <;> decide

/-- C1 (amended): overlapping set loads are serialized by the boolean
isLoading flag, not by sequence numbers, and the winner is the EARLIER
action: a loadSet issued while another load is in flight is dropped
entirely, and the applied state after the overlap corresponds to the
first action. -/
theorem c1_first_load_wins (s : RouterState) (idA idB : String)
    (pA pB : Bool) (doc : LeetDoc) (h : s.isLoading = false) :
    loadSetStart (loadSetStart s idA pA) idB pB = loadSetStart s idA pA ∧
      (loadSetResolve (loadSetStart (loadSetStart s idA pA) idB pB)
        (some doc)).applied = some idA := by
  have h1 : (loadSetStart s idA pA).isLoading = true :=
    loadSetStart_isLoading s idA pA h
  have h2 : (loadSetStart s idA pA).pending = some idA :=
    loadSetStart_pending s idA pA h
  have h3 : loadSetStart (loadSetStart s idA pA) idB pB =
      loadSetStart s idA pA :=
    loadSetStart_of_loading _ idB pB h1
  refine ⟨h3, ?_⟩
  rw [h3]
  simp [loadSetResolve, h2]

/-- C1 witness: the guard property at a concrete overlapping schedule. -/
theorem c1_witness :
    loadSetStart (loadSetStart demoRouter "A" true) "B" true =
        loadSetStart demoRouter "A" true ∧
      (loadSetResolve (loadSetStart (loadSetStart demoRouter "A" true) "B" true)
        (some demoDoc)).applied = some "A" :=
  c1_first_load_wins demoRouter "A" "B" true true demoDoc rfl

/-! ## C2 — the popstate handler -/

/-- C2 counterexample: with a current URL carrying no set parameter, the
installed popstate handler calls backToMainMenu, which pushes a new menu
history entry; running the handler twice in that same URL state pushes
twice, so the handler is neither push-free nor idempotent. -/
theorem c2_counterexample :
    (popstateHandler demoRouter).history.length =
        demoRouter.history.length + 1 ∧
      popstateHandler (popstateHandler demoRouter) ≠
        popstateHandler demoRouter := by
  refine ⟨?_, ?_⟩ <;> decide

/-- C2 (amended): in the set-present branch the handler only reacts — it
pushes no history entry (loadSet is invoked with pushUrl = false) and
running it twice in the same URL state equals running it once, the second
synchronous run being absorbed by the isLoading guard.  In the set-absent
branch the handler delegates to backToMainMenu, which pushes a menu
entry (see the counterexample). -/
theorem c2_popstate_set_branch (s : RouterState) (id : String)
    (h : getSetId s = some id) :
    (popstateHandler s).history = s.history ∧
      popstateHandler (popstateHandler s) = popstateHandler s := by
  have e1 := popstateHandler_some s id h
  have hist1 : (popstateHandler s).history = s.history := by
    rw [e1]
    exact loadSetStart_history_nopush s id
  refine ⟨hist1, ?_⟩
  have hget : getSetId (popstateHandler s) = some id := by
    unfold getSetId at h ⊢
    rw [hist1]
    exact h
  have hl : (popstateHandler s).isLoading = true := by
    rw [e1]
    exact loadSetStart_isLoading' s id false
  have e2 := popstateHandler_some (popstateHandler s) id hget
  rw [e2, loadSetStart_of_loading (popstateHandler s) id false hl, e1]

/-- C2 witness: the set-present branch at a concrete state. -/
theorem c2_witness :
    (popstateHandler { demoRouter with history := [some "algo1"] }).history =
        ({ demoRouter with history := [some "algo1"] } : RouterState).history ∧
      popstateHandler (popstateHandler
          { demoRouter with history := [some "algo1"] }) =
        popstateHandler { demoRouter with history := [some "algo1"] } :=
  c2_popstate_set_branch { demoRouter with history := [some "algo1"] }
    "algo1" rfl

/-! ## C6 — URL / NavigationState round-trip -/

/-- C6: immediately after the mutation of an enterSet (loadSet with
pushUrl = true, not blocked by the loading guard) the URL's set parameter
re-parses to exactly the entered id; after leaveSet (backToMainMenu) it
re-parses to none (menu state); an intra-set switchProblem leaves the URL
unchanged. -/
theorem c6_url_roundtrip (s : RouterState) (id : String) (st : Storage)
    (v : ViewNav) (sid : String) (d : LeetDoc) (i : Int)
    (h : s.isLoading = false) :
    getSetId (loadSetStart s id true) = some id ∧
      getSetId (backToMainMenu s) = none ∧
      getSetId (switchProblem s st v sid d i).1 = getSetId s := by
  refine ⟨?_, ?_, ?_⟩
  · simp [loadSetStart, h, getSetId]
  · simp [backToMainMenu, getSetId]
  · rfl

/-- C6 witness: the round-trip at a concrete state and inputs. -/
theorem c6_witness :
    getSetId (loadSetStart demoRouter "algo1" true) = some "algo1" ∧
      getSetId (backToMainMenu demoRouter) = none ∧
      getSetId (switchProblem demoRouter none demoView "algo1" demoDoc 2).1 =
        getSetId demoRouter :=
  c6_url_roundtrip demoRouter "algo1" none demoView "algo1" demoDoc 2 rfl

/-! ## C4 — failed loads and the cache -/

/-- C4 counterexample: the first load of "s" issues a fetch and caches the
promise; after that fetch rejects, the entry is still the cached
rejection, and a second load issues NO fresh fetch and returns the cached
rejected promise — refuting the claim that rejections are not retained. -/
theorem c4_counterexample :
    (loadSetJSON [] "s").2 = true ∧
      (loadSetJSON
          (settleFetch (loadSetJSON [] "s").1 "s" (PromiseState.rejected "err"))
          "s").2 = false ∧
      (loadSetJSON
          (settleFetch (loadSetJSON [] "s").1 "s" (PromiseState.rejected "err"))
          "s").1.lookup "s" = some (PromiseState.rejected "err") := by
  refine ⟨?_, ?_, ?_⟩ <;> decide

/-- C4 (amended): failed loads ARE cached.  loadSetJSON stores the promise
before any validation runs and nothing ever removes it, so once the cache
holds a rejection for an id, a subsequent load returns the cache
unchanged and issues no network fetch (the caller receives the same
rejected promise). -/
theorem c4_rejection_is_cached (c : SetCache) (id : String) (msg : String)
    (h : c.lookup id = some (PromiseState.rejected msg)) :
    loadSetJSON c id = (c, false) := by
  unfold loadSetJSON
  rw [h]

/-- C4 witness: a concrete cache holding a rejection for "s". -/
theorem c4_witness :
    loadSetJSON [("s", PromiseState.rejected "err")] "s" =
      ([("s", PromiseState.rejected "err")], false) :=
  c4_rejection_is_cached [("s", PromiseState.rejected "err")] "s" "err"
    (by decide)

/-! ## C5 — at-most-one-fetch memoization -/

theorem lookup_cons_self {β : Type} (k : String) (v : β)
    (l : List (String × β)) : List.lookup k ((k, v) :: l) = some v := by
  simp [List.lookup]

theorem lookup_cons_ne {β : Type} (a k : String) (v : β)
    (l : List (String × β)) (h : a ≠ k) :
    List.lookup a ((k, v) :: l) = List.lookup a l := by
  have hb : (a == k) = false := beq_eq_false_iff_ne.mpr h
  simp [List.lookup, hb]

theorem settleFetch_lookup_isSome (c : SetCache) (k : String)
    (r : PromiseState) (id : String) :
    ((settleFetch c k r).lookup id).isSome = (c.lookup id).isSome := by
  induction c with
  | nil => rfl
  | cons e rest ih =>
      rcases e with ⟨k1, v1⟩
      simp only [settleFetch, List.map_cons] at ih ⊢
      by_cases hk : k1 = k
      · rw [if_pos hk]
        by_cases hid : id = k1
        · subst hid
          rw [lookup_cons_self, lookup_cons_self]
          rfl
        · rw [lookup_cons_ne id k1 r _ hid, lookup_cons_ne id k1 v1 _ hid]
          exact ih
      · rw [if_neg hk]
        by_cases hid : id = k1
        · subst hid
          rw [lookup_cons_self, lookup_cons_self]
        · rw [lookup_cons_ne id k1 v1 _ hid, lookup_cons_ne id k1 v1 _ hid]
          exact ih

/-- Fetch counting over a trace, generalized over the starting cache. -/
theorem runLoads_count (calls : List String) (c : SetCache) (id : String) :
    (runLoads c calls).2.count id =
      if (c.lookup id).isNone ∧ id ∈ calls then 1 else 0 := by
  induction calls generalizing c with
  | nil => simp [runLoads]
  | cons a rest ih =>
      rw [runLoads]
      rcases eq_or_ne a id with rfl | hne
      · cases h : c.lookup a with
        | none =>
            have hfetch : loadSetJSON c a =
                ((a, PromiseState.pending) :: c, true) := by
              unfold loadSetJSON; rw [h]
            have hc1 : (((a, PromiseState.pending) :: c).lookup a).isNone
                = false := by
              rw [lookup_cons_self]; rfl
            simp [hfetch, ih, hc1, h, List.count_cons]
        | some v =>
            have hfetch : loadSetJSON c a = (c, false) := by
              unfold loadSetJSON; rw [h]
            simp [hfetch, ih, h]
      · have hmem : (id ∈ a :: rest) ↔ (id ∈ rest) := by
          simp [List.mem_cons, Ne.symm hne]
        cases h : c.lookup a with
        | none =>
            have hfetch : loadSetJSON c a =
                ((a, PromiseState.pending) :: c, true) := by
              unfold loadSetJSON; rw [h]
            have hlk : ((a, PromiseState.pending) :: c).lookup id
                = c.lookup id :=
              lookup_cons_ne id a _ _ (Ne.symm hne)
            simp only [hfetch, ih, List.count_append]
            rw [hlk]
            simp only [hmem]
            simp [List.count_cons, hne, Ne.symm hne]
        | some v =>
            have hfetch : loadSetJSON c a = (c, false) := by
              unfold loadSetJSON; rw [h]
            simp only [hfetch, ih, List.count_append]
            simp only [hmem]
            simp

/-- C5: starting from the empty session cache, a sequence of load calls
performs exactly one network fetch for an id that is requested at least
once (and none for ids never requested); moreover an id already cached —
pending or settled — is answered from the cache with no fetch and no
cache change, and settling a fetch never evicts any entry. -/
theorem c5_at_most_one_fetch (calls : List String) (id : String)
    (c : SetCache) (ps : PromiseState) (k : String) (r : PromiseState)
    (h : c.lookup id = some ps) :
    ((runLoads [] calls).2.count id = if id ∈ calls then 1 else 0) ∧
      (loadSetJSON c id = (c, false)) ∧
      (((settleFetch c k r).lookup id).isSome = (c.lookup id).isSome) := by
  refine ⟨?_, ?_, ?_⟩
  · rw [runLoads_count calls [] id]
    simp [List.lookup]
  · unfold loadSetJSON
    rw [h]
  · exact settleFetch_lookup_isSome c k r id

/-- C5 witness: two loads of "a" from an empty cache fetch exactly once;
a cached pending entry answers without fetching. -/
theorem c5_witness :
    ((runLoads [] ["a", "a"]).2.count "a" = if "a" ∈ ["a", "a"] then 1 else 0) ∧
      (loadSetJSON [("a", PromiseState.pending)] "a" =
          ([("a", PromiseState.pending)], false)) ∧
      (((settleFetch [("a", PromiseState.pending)] "a"
            (PromiseState.rejected "e")).lookup "a").isSome =
        (List.lookup "a" [("a", PromiseState.pending)]).isSome) :=
  c5_at_most_one_fetch ["a", "a"] "a" [("a", PromiseState.pending)]
    PromiseState.pending "a" (PromiseState.rejected "e") (by decide)

/-! ## C3 — partial load failures and pickRandom -/

/-- Whether a settled promise value is a rejection. -/
def exceptIsErr {α : Type} : Except String α → Bool
  | Except.error _ => true
  | Except.ok _ => false

theorem exceptIsErr_map {α β : Type} (f : α → β) (x : Except String α) :
    exceptIsErr (x.map f) = exceptIsErr x := by
  cases x <;> rfl

theorem promiseAll_isErr (l : List (Except String LoadedSet))
    (x : Except String LoadedSet) (hx : x ∈ l)
    (he : exceptIsErr x = true) :
    exceptIsErr (promiseAll l) = true := by
  induction l with
  | nil => cases hx
  | cons y rest ih =>
      cases y with
      | error e => rfl
      | ok v =>
          rcases List.mem_cons.mp hx with rfl | hx2
          · cases he
          · rw [promiseAll, exceptIsErr_map]
            exact ih hx2

/-- C3 fixtures: set "A" whose fetch rejects, set "B" that loads fine and
contains a problem matching category 500 at any difficulty. -/
def cexSets : List SetRef := [{ setId := "A", url := "uA" }, { setId := "B", url := "uB" }]

def cexFetch : String → Except String LeetDoc := fun id =>
  if id = "B" then Except.ok [{ tag := 512, difficult := "easy", title := "q1" }]
  else Except.error ("題組 " ++ id ++ " 載入失敗")

/-- C3 counterexample: with set "A" failing and set "B" loading
successfully with a matching problem, the pick does not succeed — the
whole pickAndRender rejects with the failed set's error, because
loadAllSets aggregates with Promise.all. -/
theorem c3_counterexample :
    cexFetch "B" =
        Except.ok [{ tag := 512, difficult := "easy", title := "q1" }] ∧
      makeFilter 500 "none" { tag := 512, difficult := "easy", title := "q1" }
        = true ∧
      pickAndRender cexSets cexFetch 500 "none" 0 =
        Except.error ("題組 " ++ "A" ++ " 載入失敗") := by
  refine ⟨rfl, by decide, rfl⟩

/-- C3 (amended): a failed set load is fatal to the random pick, not
merely excluded: loadAllSets aggregates with all-or-nothing
Promise.all semantics, so if any discovered set's fetch rejects, the
whole load — and with it pickAndRender — rejects, even when other sets
loaded successfully and contain matching problems. -/
theorem c3_failed_set_is_fatal (sets : List SetRef)
    (fetch : String → Except String LeetDoc) (s : SetRef)
    (categoryId : Int) (finalDifficulty : String) (rand : ℚ)
    (hmem : s ∈ sets) (hf : exceptIsErr (fetch s.setId) = true) :
    exceptIsErr (loadAllSets sets fetch) = true ∧
      exceptIsErr (pickAndRender sets fetch categoryId finalDifficulty rand)
        = true := by
  have hne : sets.isEmpty = false := by
    cases sets
    · cases hmem
    · rfl
  have h1 : exceptIsErr (loadAllSets sets fetch) = true := by
    rw [loadAllSets, hne]
    simp only [Bool.false_eq_true, if_false]
    refine promiseAll_isErr _ ((fetch s.setId).map (fun d => LoadedSet.mk s.setId d)) ?_ ?_
    · exact List.mem_map_of_mem _ hmem
    · rw [exceptIsErr_map]
      exact hf
  refine ⟨h1, ?_⟩
  rw [pickAndRender]
  cases hall : loadAllSets sets fetch with
  | error e => rfl
  | ok l => rw [hall] at h1; cases h1

/-- C3 witness: the fatality of one failed set at the concrete fixtures. -/
theorem c3_witness :
    exceptIsErr (loadAllSets cexSets cexFetch) = true ∧
      exceptIsErr (pickAndRender cexSets cexFetch 500 "none" 0) = true :=
  c3_failed_set_is_fatal cexSets cexFetch { setId := "A", url := "uA" }
    500 "none" 0 (by decide) (by decide)

/-! ## Pool-membership machinery for C7 and C8 -/

theorem ratFloor_eq_floor (q : ℚ) : Rat.floor q = ⌊q⌋ := by
  rw [Rat.floor_def', Rat.floor_def]

theorem mem_filterIndexed (sid : String) (pred : LeetQ → Bool) (l : LeetDoc)
    (start : Nat) (p : Picked) :
    p ∈ filterIndexed sid pred start l ↔
      ∃ k, l.get? k = some p.q ∧ p.idx = start + k ∧ pred p.q = true ∧
        p.setId = sid := by
  induction l generalizing start with
  | nil => simp [filterIndexed]
  | cons q rest ih =>
      rw [filterIndexed]
      rw [List.mem_append]
      constructor
      · rintro (h1 | h2)
        · by_cases hp : pred q = true
          · rw [if_pos hp] at h1
            rcases List.mem_singleton.mp h1 with rfl
            exact ⟨0, by simp, by simp, hp, rfl⟩
          · rw [if_neg hp] at h1
            cases h1
        · rcases (ih (start + 1)).mp h2 with ⟨k, hk1, hk2, hk3, hk4⟩
          refine ⟨k + 1, by simpa using hk1, by omega, hk3, hk4⟩
      · rintro ⟨k, hk1, hk2, hk3, hk4⟩
        cases k with
        | zero =>
            left
            have hq : q = p.q := by simpa using hk1
            rw [if_pos (by rw [hq]; exact hk3)]
            apply List.mem_singleton.mpr
            rcases p with ⟨psid, pidx, pq⟩
            simp only at hq hk2 hk4
            subst hq
            simp [hk4, hk2]
        | succ k =>
            right
            apply (ih (start + 1)).mpr
            exact ⟨k, by simpa using hk1, by omega, hk3, hk4⟩

theorem mem_poolOf (loaded : List LoadedSet) (pred : LeetQ → Bool)
    (p : Picked) :
    p ∈ poolOf loaded pred ↔
      ∃ ls, ls ∈ loaded ∧ p.setId = ls.setId ∧
        ls.data.get? p.idx = some p.q ∧ pred p.q = true := by
  rw [poolOf, List.mem_flatMap]
  constructor
  · rintro ⟨ls, hls, hmem⟩
    rcases (mem_filterIndexed ls.setId pred ls.data 0 p).mp hmem with
      ⟨k, hk1, hk2, hk3, hk4⟩
    have hk : p.idx = k := by omega
    exact ⟨ls, hls, hk4, by rw [hk]; exact hk1, hk3⟩
  · rintro ⟨ls, hls, h1, h2, h3⟩
    refine ⟨ls, hls, (mem_filterIndexed ls.setId pred ls.data 0 p).mpr
      ⟨p.idx, h2, by omega, h3, h1⟩⟩

theorem mem_relaxedPool (loaded : List LoadedSet) (categoryId : Int)
    (p : Picked) (h : p ∈ relaxedPool loaded categoryId) :
    bucket p.q.tag = categoryId := by
  rw [relaxedPool, List.mem_flatMap] at h
  rcases h with ⟨ls, hls, hmem⟩
  rcases (mem_filterIndexed _ _ _ 0 p).mp hmem with ⟨k, _, _, hk3, _⟩
  exact beq_iff_eq.mp hk3

theorem makeFilter_bucket (categoryId : Int) (difficulty : String)
    (q : LeetQ) (h : makeFilter categoryId difficulty q = true) :
    bucket q.tag = categoryId := by
  rw [makeFilter] at h
  simp only [Bool.and_eq_true] at h
  exact beq_iff_eq.mp h.1

theorem mem_candOf_bucket (loaded : List LoadedSet) (categoryId : Int)
    (difficulty : String) (p : Picked)
    (h : p ∈ candOf loaded categoryId difficulty) :
    bucket p.q.tag = categoryId := by
  rw [candOf] at h
  by_cases hc : ((poolOf loaded (makeFilter categoryId difficulty)).isEmpty
      && (difficulty == "none")) = true
  · rw [if_pos hc] at h
    rcases List.mem_append.mp h with h1 | h2
    · rcases (mem_poolOf _ _ _).mp h1 with ⟨ls, _, _, _, hf⟩
      exact makeFilter_bucket _ _ _ hf
    · exact mem_relaxedPool _ _ _ h2
  · rw [if_neg hc] at h
    rcases (mem_poolOf _ _ _).mp h with ⟨ls, _, _, _, hf⟩
    exact makeFilter_bucket _ _ _ hf

theorem pickCore_ok_mem (loaded : List LoadedSet) (categoryId : Int)
    (difficulty : String) (rand : ℚ) (picked : Picked)
    (h : pickCore loaded categoryId difficulty rand = Except.ok picked) :
    picked ∈ candOf loaded categoryId difficulty := by
  rw [pickCore] at h
  by_cases hE : (candOf loaded categoryId difficulty).isEmpty = true
  · rw [if_pos hE] at h
    cases h
  · rw [if_neg hE] at h
    cases hg : (candOf loaded categoryId difficulty).get?
        (Int.toNat (Rat.floor
          (rand * ((candOf loaded categoryId difficulty).length : ℚ)))) with
    | none => rw [hg] at h; cases h
    | some p =>
        rw [hg] at h
        cases h
        exact List.get?_mem hg

/-! ## C7 — candidate-pool membership -/

/-- C7: an entry enters the candidate pool exactly when its hundreds
bucket (Math.floor(tag/100)*100) equals the requested category and — when
the requested difficulty is not the "any" marker "none" — its difficulty
matches case-insensitively; and every successful pick is in the requested
category (the relaxation re-scan also checks the bucket). -/
theorem c7_candidate_pool (loaded : List LoadedSet) (categoryId : Int)
    (difficulty : String) (p : Picked) (rand : ℚ) (picked : Picked)
    (hres : pickCore loaded categoryId difficulty rand = Except.ok picked) :
    (p ∈ poolOf loaded (makeFilter categoryId difficulty) ↔
      ∃ ls, ls ∈ loaded ∧ p.setId = ls.setId ∧
        ls.data.get? p.idx = some p.q ∧
        Int.fdiv p.q.tag 100 * 100 = categoryId ∧
        (difficulty = "none" ∨
          jsToLower p.q.difficult = jsToLower difficulty)) ∧
      Int.fdiv picked.q.tag 100 * 100 = categoryId := by
  constructor
  · rw [mem_poolOf]
    constructor
    · rintro ⟨ls, hls, h1, h2, h3⟩
      simp only [makeFilter, Bool.and_eq_true, Bool.or_eq_true,
        beq_iff_eq] at h3
      exact ⟨ls, hls, h1, h2, h3.1, h3.2⟩
    · rintro ⟨ls, hls, h1, h2, h4, h5⟩
      refine ⟨ls, hls, h1, h2, ?_⟩
      simp only [makeFilter, Bool.and_eq_true, Bool.or_eq_true, beq_iff_eq]
      exact ⟨h4, h5⟩
  · exact mem_candOf_bucket _ _ _ _
      (pickCore_ok_mem _ _ _ _ _ hres)

def demoLoaded : List LoadedSet := [{ setId := "B", data := demoDoc }]

def demoPick : Picked :=
  { setId := "B", idx := 0, q := { tag := 512, difficult := "easy", title := "q1" } }

theorem pickCore_demo : pickCore demoLoaded 500 "none" 0 = Except.ok demoPick := by
  have hc : candOf demoLoaded 500 "none" = [demoPick] := by decide
  have hz : Rat.floor ((0 : ℚ) * (([demoPick] : List Picked).length : ℚ)) = 0 := by
    rw [ratFloor_eq_floor]
    simp
  simp only [pickCore, hc, hz]
  rfl

/-- C7 witness: the concrete successful pick lands in category 500. -/
theorem c7_witness : Int.fdiv demoPick.q.tag 100 * 100 = 500 :=
  (c7_candidate_pool demoLoaded 500 "none" demoPick 0 demoPick
    pickCore_demo).2

/-! ## C8 — empty pools and index bounds -/

theorem floor_rand_lt (rand : ℚ) (n : ℕ) (h0 : 0 ≤ rand) (h1 : rand < 1)
    (hn : 0 < n) : Int.toNat (Rat.floor (rand * (n : ℚ))) < n := by
  rw [ratFloor_eq_floor]
  have hnn : (0 : ℚ) < (n : ℚ) := by exact_mod_cast hn
  have hlt : rand * (n : ℚ) < (n : ℚ) := by
    calc rand * (n : ℚ) < 1 * (n : ℚ) := mul_lt_mul_of_pos_right h1 hnn
    _ = (n : ℚ) := one_mul _
  have hfl : ⌊rand * (n : ℚ)⌋ < (n : ℤ) := Int.floor_lt.mpr (by exact_mod_cast hlt)
  have hge : (0 : ℤ) ≤ ⌊rand * (n : ℚ)⌋ :=
    Int.floor_nonneg.mpr (mul_nonneg h0 (le_of_lt hnn))
  omega

/-- C8: every emptiness check precedes the random indexing — when the
candidate list (after the "none" relaxation) is empty the pick is the
no-match error value, which the click handler presents as an output
message rather than an uncaught exception; when the candidate list is
non-empty the selected index Math.floor(rand * length) lies inside
[0, length) and the pick returns that element. -/
theorem c8_no_out_of_range (loaded : List LoadedSet) (categoryId : Int)
    (difficulty : String) (rand : ℚ) (sets : List SetRef)
    (fetch : String → Except String LeetDoc)
    (h0 : 0 ≤ rand) (h1 : rand < 1) :
    (candOf loaded categoryId difficulty = [] →
      pickCore loaded categoryId difficulty rand = Except.error noMatchMsg ∧
        (loadAllSets sets fetch = Except.ok loaded →
          submitClickOutput sets fetch categoryId difficulty rand =
            pickFailPref ++ noMatchMsg)) ∧
      (candOf loaded categoryId difficulty ≠ [] →
        ∃ i : Fin (candOf loaded categoryId difficulty).length,
          (i : ℕ) = Int.toNat (Rat.floor
            (rand * ((candOf loaded categoryId difficulty).length : ℚ))) ∧
          pickCore loaded categoryId difficulty rand =
            Except.ok ((candOf loaded categoryId difficulty).get i)) := by
  constructor
  · intro hE
    have hpc : pickCore loaded categoryId difficulty rand =
        Except.error noMatchMsg := by
      simp [pickCore, hE]
    refine ⟨hpc, ?_⟩
    intro hok
    have hpr : pickAndRender sets fetch categoryId difficulty rand =
        Except.error noMatchMsg := by
      rw [pickAndRender, hok]
      exact hpc
    rw [submitClickOutput, hpr]
  · intro hne
    have hEf : (candOf loaded categoryId difficulty).isEmpty = false := by
      cases hcand : candOf loaded categoryId difficulty
      · exact absurd hcand hne
      · rfl
    have hn : 0 < (candOf loaded categoryId difficulty).length :=
      List.length_pos.mpr hne
    have hidx := floor_rand_lt rand _ h0 h1 hn
    refine ⟨⟨Int.toNat (Rat.floor
      (rand * ((candOf loaded categoryId difficulty).length : ℚ))), hidx⟩,
      rfl, ?_⟩
    rw [pickCore]
    simp only [hEf, Bool.false_eq_true, if_false]
    rw [List.get?_eq_get hidx]

/-- C8 witness: a pool with no category-999 problems yields the no-match
outcome, presented by the click handler as an output message. -/
theorem c8_witness :
    pickCore demoLoaded 999 "easy" (1 / 2) = Except.error noMatchMsg ∧
      submitClickOutput [{ setId := "B", url := "uB" }]
          (fun _ => Except.ok demoDoc) 999 "easy" (1 / 2) =
        pickFailPref ++ noMatchMsg := by
  have T := (c8_no_out_of_range demoLoaded 999 "easy" (1 / 2)
    [{ setId := "B", url := "uB" }] (fun _ => Except.ok demoDoc)
    (by norm_num) (by norm_num)).1 (by decide)
  exact ⟨T.1, T.2 rfl⟩

end Akapychan
